import Mathlib

/-!
Verification of the wiki revision-history routes of the server-private
repository.

The development shallowly embeds the two source files:
* the generic paginated relation-history route factory
  (createRelationHistoryRoute) operating over the chiiRevHistory table;
* the character/person wiki routes: revision-detail lookups
  (getCharacterSubjectRevision, getCharacterPersonRevision), the current
  wiki-info lookup (getPersonWikiInfo) and the transactional person edit
  (patchPersonInfo).

The database tables are embedded as Lean lists of row structures; SQL
select/count/order/offset/limit become list filtering, sorting and slicing;
external bulk name fetchers become functions into Option; thrown errors
become an Except error type.
-/

namespace ServerPrivate

/-- Error kinds thrown by the routes: NotFoundError, schema-validation
InvalidArgument, LockedError, NotAllowedError, WikiChangedError (the
concurrent-modification error carrying a diff text) and a JS runtime
TypeError surfacing as an internal error. -/
inductive WErr where
  | notFound : String → WErr
  | invalidArgument : String → WErr
  | locked : WErr
  | notAllowed : String → WErr
  | wikiChanged : String → WErr
  | internal : String → WErr
deriving Repr, DecidableEq

/-- One row of the chiiRevHistory table (the columns the routes use). -/
structure RevRow where
  revId : Nat
  revType : Nat
  revMid : Nat
  revCreator : Nat
  revTextId : Nat
  createdAt : Nat
  revEditSummary : String
deriving Repr, DecidableEq

/-- The WHERE clause of both queries in the relation-history handler:
revMid equals the target id and revType is in the requested tag list. -/
def revQueryMatches (targetId : Nat) (revTypes : List Nat) (r : RevRow) : Bool :=
  r.revMid == targetId && revTypes.contains r.revType

/-- Rows selected by the WHERE clause, in table order. -/
def matchingRows (dbRows : List RevRow) (targetId : Nat) (revTypes : List Nat) :
    List RevRow :=
  dbRows.filter (revQueryMatches targetId revTypes)

/-- Insertion step of sorting by revId descending (ORDER BY revId DESC). -/
def insertByRevIdDesc (x : RevRow) : List RevRow → List RevRow
  | [] => [x]
  | y :: ys => if y.revId ≤ x.revId then x :: y :: ys else y :: insertByRevIdDesc x ys

/-- Sort rows by revId descending (ORDER BY revId DESC). -/
def sortByRevIdDesc : List RevRow → List RevRow
  | [] => []
  | x :: xs => insertByRevIdDesc x (sortByRevIdDesc xs)

/-- COUNT(DISTINCT revId) over a list of rows. -/
def countDistinctRevIds (rows : List RevRow) : Nat :=
  (rows.map RevRow.revId).dedup.length

/-- Response entry of the relation-history route (RelationHistorySummary):
id, creator username, unix timestamp, commit message. -/
structure RelationHistoryEntry where
  id : Nat
  creatorUsername : String
  createdAt : Nat
  commitMessage : String
deriving Repr, DecidableEq

/-- Paged response shape: total count before pagination plus the page data. -/
structure PagedRelationHistory where
  total : Nat
  data : List RelationHistoryEntry
deriving Repr, DecidableEq

/-- Map one row to a response entry, resolving the editor name through the
bulk user-lookup result and falling back to the ghost-user placeholder name
for the editor id when the lookup has no entry. -/
def enrichRow (users : Nat → Option String) (ghost : Nat → String) (x : RevRow) :
    RelationHistoryEntry :=
  { id := x.revId
    creatorUsername := (users x.revCreator).getD (ghost x.revCreator)
    createdAt := x.createdAt
    commitMessage := x.revEditSummary }

/-- The page of rows the second query returns: matching rows ordered by
revId descending, then OFFSET and LIMIT applied. -/
def pageRows (dbRows : List RevRow) (targetId : Nat) (revTypes : List Nat)
    (limit offset : Nat) : List RevRow :=
  ((sortByRevIdDesc (matchingRows dbRows targetId revTypes)).drop offset).take limit

/-- The relation-history handler body after parameter validation: count
distinct matching revision ids, fetch the ordered page, enrich each row
with the editor username. -/
def relationHistoryHandler (dbRows : List RevRow) (users : Nat → Option String)
    (ghost : Nat → String) (targetId : Nat) (revTypes : List Nat)
    (limit offset : Nat) : PagedRelationHistory :=
  { total := countDistinctRevIds (matchingRows dbRows targetId revTypes)
    data := (pageRows dbRows targetId revTypes limit offset).map (enrichRow users ghost) }

/-- A raw path-parameter value before schema validation: an integer, or any
non-integer JSON value. -/
inductive ParamValue where
  | int : Int → ParamValue
  | nonInteger : String → ParamValue
deriving Repr, DecidableEq

/-- Schema validation of the id path parameter, declared as
t.Integer with minimum 1: a non-integer or an integer below 1 is rejected
with an InvalidArgument error naming the parameter. -/
def validateIdParam (idName : String) (v : ParamValue) : Except WErr Nat :=
  match v with
  | .int i => if 1 ≤ i then .ok i.toNat else .error (.invalidArgument idName)
  | .nonInteger _ => .error (.invalidArgument idName)

/-- The full relation-history route built by createRelationHistoryRoute:
validate the id parameter, then run the handler. -/
def relationHistoryRoute (idName : String) (revTypes : List Nat)
    (dbRows : List RevRow) (users : Nat → Option String) (ghost : Nat → String)
    (rawId : ParamValue) (limit offset : Nat) : Except WErr PagedRelationHistory :=
  match validateIdParam idName rawId with
  | .error e => .error e
  | .ok targetId => .ok (relationHistoryHandler dbRows users ghost targetId revTypes limit offset)

/-! Permutation and sortedness facts about the descending sort. -/

theorem insertByRevIdDesc_perm (x : RevRow) (l : List RevRow) :
    (insertByRevIdDesc x l).Perm (x :: l) := by
  induction l with
  | nil => simp [insertByRevIdDesc]
  | cons y ys ih =>
    simp only [insertByRevIdDesc]
    split
    · exact List.Perm.refl _
    · exact ((ih.cons y).trans (List.Perm.swap x y ys))

theorem sortByRevIdDesc_perm (l : List RevRow) : (sortByRevIdDesc l).Perm l := by
  induction l with
  | nil => simp [sortByRevIdDesc]
  | cons x xs ih =>
    exact (insertByRevIdDesc_perm x (sortByRevIdDesc xs)).trans (ih.cons x)

theorem sortByRevIdDesc_length (l : List RevRow) :
    (sortByRevIdDesc l).length = l.length :=
  (sortByRevIdDesc_perm l).length_eq

theorem insertByRevIdDesc_pairwise (x : RevRow) (l : List RevRow)
    (h : l.Pairwise (fun a b => b.revId ≤ a.revId)) :
    (insertByRevIdDesc x l).Pairwise (fun a b => b.revId ≤ a.revId) := by
  induction l with
  | nil => simp [insertByRevIdDesc]
  | cons y ys ih =>
    simp only [insertByRevIdDesc]
    rcases List.pairwise_cons.mp h with ⟨hy, hys⟩
    split
    · rename_i hle
      refine List.pairwise_cons.mpr ⟨?_, h⟩
      intro b hb
      rcases hb with _ | hb
      · exact hle
      · exact le_trans (hy b (by assumption)) hle
    · rename_i hlt
      push_neg at hlt
      refine List.pairwise_cons.mpr ⟨?_, ih hys⟩
      intro b hb
      have hmem : b ∈ x :: ys := (insertByRevIdDesc_perm x ys).mem_iff.mp hb
      rcases hmem with _ | hmem
      · exact le_of_lt hlt
      · exact hy b (by assumption)

theorem sortByRevIdDesc_pairwise (l : List RevRow) :
    (sortByRevIdDesc l).Pairwise (fun a b => b.revId ≤ a.revId) := by
  induction l with
  | nil => simp [sortByRevIdDesc]
  | cons x xs ih => exact insertByRevIdDesc_pairwise x (sortByRevIdDesc xs) ih

/-- When the matching rows carry pairwise-distinct revision ids (revId is
the table's primary key) the strict descending order holds on the sorted
list. -/
theorem sortByRevIdDesc_pairwise_strict (l : List RevRow)
    (hnodup : (l.map RevRow.revId).Nodup) :
    (sortByRevIdDesc l).Pairwise (fun a b => b.revId < a.revId) := by
  have hperm : ((sortByRevIdDesc l).map RevRow.revId).Perm (l.map RevRow.revId) :=
    (sortByRevIdDesc_perm l).map RevRow.revId
  have hnd : ((sortByRevIdDesc l).map RevRow.revId).Nodup :=
    (hperm.nodup_iff).mpr hnodup
  have hne : (sortByRevIdDesc l).Pairwise (fun a b => a.revId ≠ b.revId) :=
    List.pairwise_map.mp hnd
  have hle := sortByRevIdDesc_pairwise l
  exact (hle.and hne).imp (fun h => lt_of_le_of_ne h.1 h.2.symm)

/-- Fixed sample database used by the witness theorems: target entity 1 has
three matching revisions (ids 3, 1, 2) of type 10, one row of another type
and one row of another target. -/
def sampleDb : List RevRow :=
  [ { revId := 3, revType := 10, revMid := 1, revCreator := 7, revTextId := 0,
      createdAt := 30, revEditSummary := "c" }
  , { revId := 1, revType := 10, revMid := 1, revCreator := 8, revTextId := 0,
      createdAt := 10, revEditSummary := "a" }
  , { revId := 2, revType := 10, revMid := 1, revCreator := 7, revTextId := 0,
      createdAt := 20, revEditSummary := "b" }
  , { revId := 4, revType := 11, revMid := 1, revCreator := 7, revTextId := 0,
      createdAt := 40, revEditSummary := "d" }
  , { revId := 5, revType := 10, revMid := 2, revCreator := 7, revTextId := 0,
      createdAt := 50, revEditSummary := "e" } ]

/-- Sample bulk user-lookup result: only editor 7 resolves. -/
def sampleUsers : Nat → Option String :=
  fun i => if i = 7 then some "alice" else none

/-- Sample deterministic ghost-name function. -/
def sampleGhost : Nat → String :=
  fun i => "user_" ++ toString i

/-- C1: for every valid targetId with N matching revisions and every limit
in the range 1 to 100 and any offset, the handler returns total equal to N
independently of limit and offset, the data sequence has length
min limit (N - offset) (truncated subtraction), and when offset exceeds N
the data sequence is empty while total still equals N. N is the number of
matching rows; revId is the table's primary key, so the matching rows carry
pairwise-distinct revision ids. -/
theorem relationHistory_pagination
    (dbRows : List RevRow) (users : Nat → Option String) (ghost : Nat → String)
    (targetId : Nat) (revTypes : List Nat) (limit offset : Nat)
    (hnodup : ((matchingRows dbRows targetId revTypes).map RevRow.revId).Nodup)
    (hlim₁ : 1 ≤ limit) (hlim₂ : limit ≤ 100) :
    (relationHistoryHandler dbRows users ghost targetId revTypes limit offset).total
      = (matchingRows dbRows targetId revTypes).length
    ∧ (relationHistoryHandler dbRows users ghost targetId revTypes limit offset).data.length
      = min limit ((matchingRows dbRows targetId revTypes).length - offset)
    ∧ ((matchingRows dbRows targetId revTypes).length < offset →
        (relationHistoryHandler dbRows users ghost targetId revTypes limit offset).data = []) := by
  have htotal :
      (relationHistoryHandler dbRows users ghost targetId revTypes limit offset).total
        = (matchingRows dbRows targetId revTypes).length := by
    simp only [relationHistoryHandler, countDistinctRevIds]
    rw [List.dedup_eq_self.mpr hnodup, List.length_map]
  have hlen :
      (relationHistoryHandler dbRows users ghost targetId revTypes limit offset).data.length
        = min limit ((matchingRows dbRows targetId revTypes).length - offset) := by
    simp only [relationHistoryHandler, pageRows, List.length_map, List.length_take,
      List.length_drop, sortByRevIdDesc_length]
  refine ⟨htotal, hlen, ?_⟩
  intro hoff
  have h0 : min limit ((matchingRows dbRows targetId revTypes).length - offset) = 0 := by
    omega
  exact List.eq_nil_of_length_eq_zero (by rw [hlen, h0])

/-- Witness for C1 at the sample database: target 1, types containing 10,
limit 2, offset 1, three matching revisions. -/
theorem relationHistory_pagination_witness :
    ((matchingRows sampleDb 1 [10]).map RevRow.revId).Nodup
    ∧ 1 ≤ 2 ∧ 2 ≤ 100
    ∧ ((relationHistoryHandler sampleDb sampleUsers sampleGhost 1 [10] 2 1).total
        = (matchingRows sampleDb 1 [10]).length
      ∧ (relationHistoryHandler sampleDb sampleUsers sampleGhost 1 [10] 2 1).data.length
        = min 2 ((matchingRows sampleDb 1 [10]).length - 1)
      ∧ ((matchingRows sampleDb 1 [10]).length < 1 →
          (relationHistoryHandler sampleDb sampleUsers sampleGhost 1 [10] 2 1).data = [])) :=
  ⟨by decide, by decide, by decide,
    relationHistory_pagination sampleDb sampleUsers sampleGhost 1 [10] 2 1
      (by decide) (by decide) (by decide)⟩

/-- C4: the data sequence of a relation-history result is strictly
descending in revision id: every pair of consecutive entries satisfies
data[i].id > data[i+1].id. The hypothesis records that revId is the
table's primary key, so matching rows carry pairwise-distinct ids. -/
theorem relationHistory_ordered
    (dbRows : List RevRow) (users : Nat → Option String) (ghost : Nat → String)
    (targetId : Nat) (revTypes : List Nat) (limit offset : Nat)
    (hnodup : ((matchingRows dbRows targetId revTypes).map RevRow.revId).Nodup) :
    (relationHistoryHandler dbRows users ghost targetId revTypes limit offset).data.Chain'
      (fun a b => b.id < a.id) := by
  have hsorted := sortByRevIdDesc_pairwise_strict _ hnodup
  have hpage : (pageRows dbRows targetId revTypes limit offset).Pairwise
      (fun a b => b.revId < a.revId) := by
    refine List.Pairwise.sublist ?_ hsorted
    exact (List.take_sublist _ _).trans (List.drop_sublist _ _)
  have hdata :
      ((pageRows dbRows targetId revTypes limit offset).map (enrichRow users ghost)).Pairwise
        (fun a b => b.id < a.id) :=
    List.pairwise_map.mpr hpage
  exact hdata.chain'

/-- Witness for C4 at the sample database: full first page of target 1. -/
theorem relationHistory_ordered_witness :
    ((matchingRows sampleDb 1 [10]).map RevRow.revId).Nodup
    ∧ (relationHistoryHandler sampleDb sampleUsers sampleGhost 1 [10] 20 0).data.Chain'
        (fun a b => b.id < a.id) :=
  ⟨by decide,
    relationHistory_ordered sampleDb sampleUsers sampleGhost 1 [10] 20 0 (by decide)⟩

/-- C7: the enrichment step never fails (on a valid target the route always
returns ok, for every user-lookup result), and every row of the returned
page whose editor id has no entry in the bulk user-lookup result is
returned with the deterministic ghost-user placeholder name derived from
that editor id. -/
theorem relationHistory_ghost_fallback
    (dbRows : List RevRow) (users : Nat → Option String) (ghost : Nat → String)
    (targetId : Nat) (revTypes : List Nat) (limit offset : Nat) (x : RevRow)
    (hmem : x ∈ pageRows dbRows targetId revTypes limit offset)
    (hmiss : users x.revCreator = none) :
    (∀ idName : String, ∀ rawId : Int, 1 ≤ rawId →
        relationHistoryRoute idName revTypes dbRows users ghost (.int rawId) limit offset
          = .ok (relationHistoryHandler dbRows users ghost rawId.toNat revTypes limit offset))
    ∧ enrichRow users ghost x
        ∈ (relationHistoryHandler dbRows users ghost targetId revTypes limit offset).data
    ∧ (enrichRow users ghost x).creatorUsername = ghost x.revCreator := by
  refine ⟨?_, ?_, ?_⟩
  · intro idName rawId hraw
    simp [relationHistoryRoute, validateIdParam, hraw]
  · exact List.mem_map_of_mem (enrichRow users ghost) hmem
  · simp [enrichRow, hmiss]

/-- Witness for C7 at the sample database: the revision with id 1 was made
by editor 8, who has no user record, so its creator name is the ghost name
for id 8. -/
theorem relationHistory_ghost_fallback_witness :
    ({ revId := 1, revType := 10, revMid := 1, revCreator := 8, revTextId := 0,
        createdAt := 10, revEditSummary := "a" } : RevRow) ∈ pageRows sampleDb 1 [10] 20 0
    ∧ sampleUsers 8 = none
    ∧ ((∀ idName : String, ∀ rawId : Int, 1 ≤ rawId →
          relationHistoryRoute idName [10] sampleDb sampleUsers sampleGhost (.int rawId) 20 0
            = .ok (relationHistoryHandler sampleDb sampleUsers sampleGhost rawId.toNat [10] 20 0))
      ∧ enrichRow sampleUsers sampleGhost
          { revId := 1, revType := 10, revMid := 1, revCreator := 8, revTextId := 0,
            createdAt := 10, revEditSummary := "a" }
          ∈ (relationHistoryHandler sampleDb sampleUsers sampleGhost 1 [10] 20 0).data
      ∧ (enrichRow sampleUsers sampleGhost
          { revId := 1, revType := 10, revMid := 1, revCreator := 8, revTextId := 0,
            createdAt := 10, revEditSummary := "a" }).creatorUsername = sampleGhost 8) :=
  ⟨by decide, by simp [sampleUsers],
    relationHistory_ghost_fallback sampleDb sampleUsers sampleGhost 1 [10] 20 0 _
      (by decide) (by simp [sampleUsers])⟩

/-- C5: when the raw id path parameter is not a positive integer (either a
non-integer value or an integer below 1), the relation-history route fails
with an InvalidArgument error naming the parameter, and the result does not
depend on the database (no lookup is performed: the result equals the
result over the empty table). -/
theorem relationHistory_invalid_target
    (idName : String) (revTypes : List Nat) (dbRows : List RevRow)
    (users : Nat → Option String) (ghost : Nat → String)
    (rawId : ParamValue) (limit offset : Nat)
    (hbad : ∀ i : Int, rawId = .int i → i < 1) :
    relationHistoryRoute idName revTypes dbRows users ghost rawId limit offset
      = .error (.invalidArgument idName)
    ∧ relationHistoryRoute idName revTypes dbRows users ghost rawId limit offset
      = relationHistoryRoute idName revTypes [] users ghost rawId limit offset := by
  cases rawId with
  | int i =>
    have hi : i < 1 := hbad i rfl
    have hni : ¬ (1 : Int) ≤ i := not_le.mpr hi
    constructor <;> simp [relationHistoryRoute, validateIdParam, hni]
  | nonInteger s => exact ⟨rfl, rfl⟩

/-- Witness for C5: the raw value 0 is rejected with InvalidArgument and the
result is database-independent. -/
theorem relationHistory_invalid_target_witness :
    (∀ i : Int, ParamValue.int 0 = .int i → i < 1)
    ∧ (relationHistoryRoute "characterID" [10] sampleDb sampleUsers sampleGhost
          (.int 0) 20 0 = .error (.invalidArgument "characterID")
      ∧ relationHistoryRoute "characterID" [10] sampleDb sampleUsers sampleGhost
          (.int 0) 20 0
        = relationHistoryRoute "characterID" [10] [] sampleUsers sampleGhost
            (.int 0) 20 0) :=
  ⟨fun i h => by cases h; decide,
    relationHistory_invalid_target "characterID" [10] sampleDb sampleUsers sampleGhost
      (.int 0) 20 0 (fun i h => by cases h; decide)⟩

/-! Embedding of the revision-detail lookup routes. -/

/-- One relation fact of a character-subject revision blob entry (field
names follow the stored shape: subject id and character appearance type). -/
structure CharacterSubjectRevItem where
  subject_id : Nat
  crt_type : Nat
deriving Repr, DecidableEq

/-- One relation fact of a character-person revision blob entry. -/
structure CharacterPersonRevItem where
  subject_id : Nat
  prsn_id : Nat
deriving Repr, DecidableEq

/-- One row of the chiiRevText table, already deserialized: the blob is a
mapping from revision id to the list of relation facts of that revision. -/
structure RevTextRow (α : Type) where
  revTextId : Nat
  revText : List (Nat × List α)
deriving Repr, DecidableEq

/-- Response entry of the character-subject revision-detail route. -/
structure CharacterSubjectRelationEntry where
  subjectId : Nat
  subjectName : String
  characterType : Nat
deriving Repr, DecidableEq

/-- Response entry of the character-person revision-detail route. -/
structure CharacterPersonRelationEntry where
  subjectId : Nat
  subjectName : String
  personId : Nat
  personName : String
deriving Repr, DecidableEq

/-- Map one character-subject relation fact into the response shape,
replacing a missing subject name by the empty string. -/
def csMapItem (subjects : Nat → Option String) (it : CharacterSubjectRevItem) :
    CharacterSubjectRelationEntry :=
  { subjectId := it.subject_id
    subjectName := (subjects it.subject_id).getD ""
    characterType := it.crt_type }

/-- Map one character-person relation fact into the response shape,
replacing a missing subject or person name by the empty string. -/
def cpMapItem (subjects persons : Nat → Option String) (it : CharacterPersonRevItem) :
    CharacterPersonRelationEntry :=
  { subjectId := it.subject_id
    subjectName := (subjects it.subject_id).getD ""
    personId := it.prsn_id
    personName := (persons it.prsn_id).getD "" }

/-- The getCharacterSubjectRevision handler: find the revision row, find
its revision-text row, select the blob entry for the requested revision id
(a missing entry surfaces as the JS TypeError of Object.values on
undefined), and map the facts into the response shape. -/
def getCharacterSubjectRevision (revRows : List RevRow)
    (revTexts : List (RevTextRow CharacterSubjectRevItem))
    (subjects : Nat → Option String) (revisionID : Nat) :
    Except WErr (List CharacterSubjectRelationEntry) :=
  match revRows.find? (fun r => r.revId == revisionID) with
  | none => .error (.notFound ("revision " ++ toString revisionID))
  | some r =>
    match revTexts.find? (fun tx => tx.revTextId == r.revTextId) with
    | none => .error (.notFound ("RevText " ++ toString r.revTextId))
    | some revText =>
      match revText.revText.lookup revisionID with
      | none => .error (.internal "TypeError")
      | some items => .ok (items.map (csMapItem subjects))

/-- The getCharacterPersonRevision handler, analogous to the
character-subject one but enriching both subject and person names. -/
def getCharacterPersonRevision (revRows : List RevRow)
    (revTexts : List (RevTextRow CharacterPersonRevItem))
    (subjects persons : Nat → Option String) (revisionID : Nat) :
    Except WErr (List CharacterPersonRelationEntry) :=
  match revRows.find? (fun r => r.revId == revisionID) with
  | none => .error (.notFound ("revision " ++ toString revisionID))
  | some r =>
    match revTexts.find? (fun tx => tx.revTextId == r.revTextId) with
    | none => .error (.notFound ("RevText " ++ toString r.revTextId))
    | some revText =>
      match revText.revText.lookup revisionID with
      | none => .error (.internal "TypeError")
      | some items => .ok (items.map (cpMapItem subjects persons))

/-- C8: when no revision row has the requested id, the history-detail
lookup fails with a NotFound error whose message names that revision id,
and it does not reach the blob-decoding step: the result is the same for
every revision-text store. -/
theorem revisionDetail_notFound (revRows : List RevRow)
    (revTexts : List (RevTextRow CharacterSubjectRevItem))
    (subjects : Nat → Option String) (revisionID : Nat)
    (h : ∀ r ∈ revRows, r.revId ≠ revisionID) :
    getCharacterSubjectRevision revRows revTexts subjects revisionID
      = .error (.notFound ("revision " ++ toString revisionID))
    ∧ ∀ revTexts₂, getCharacterSubjectRevision revRows revTexts subjects revisionID
        = getCharacterSubjectRevision revRows revTexts₂ subjects revisionID := by
  have hfind : revRows.find? (fun r => r.revId == revisionID) = none := by
    rw [List.find?_eq_none]
    intro r hr
    simp [h r hr]
  constructor
  · simp [getCharacterSubjectRevision, hfind]
  · intro revTexts₂
    simp [getCharacterSubjectRevision, hfind]

/-- Witness for C8: revision id 500 has no row, so the lookup fails with
the message naming revision 500. -/
theorem revisionDetail_notFound_witness :
    (∀ r ∈ sampleDb, r.revId ≠ 500)
    ∧ (getCharacterSubjectRevision sampleDb [] sampleUsers 500
        = .error (.notFound "revision 500")
      ∧ ∀ revTexts₂, getCharacterSubjectRevision sampleDb [] sampleUsers 500
          = getCharacterSubjectRevision sampleDb revTexts₂ sampleUsers 500) :=
  ⟨by decide, revisionDetail_notFound sampleDb [] sampleUsers 500 (by decide)⟩

/-- C9: on a successfully decoded revision blob, the lookup returns ok (one
response entry per relation fact), and every fact whose cross-referenced
entity is absent from the bulk name-fetch result is returned with an empty
string as its name while its numeric ids are returned unchanged. Stated
for both the character-subject and the character-person detail routes. -/
theorem revisionDetail_missing_names
    (revRows : List RevRow)
    (revTextsS : List (RevTextRow CharacterSubjectRevItem))
    (revTextsP : List (RevTextRow CharacterPersonRevItem))
    (subjects persons : Nat → Option String) (ridS ridP : Nat)
    (rS rP : RevRow) (txS : RevTextRow CharacterSubjectRevItem)
    (txP : RevTextRow CharacterPersonRevItem)
    (itemsS : List CharacterSubjectRevItem) (itemsP : List CharacterPersonRevItem)
    (hrS : revRows.find? (fun r => r.revId == ridS) = some rS)
    (htS : revTextsS.find? (fun tx => tx.revTextId == rS.revTextId) = some txS)
    (hiS : txS.revText.lookup ridS = some itemsS)
    (hrP : revRows.find? (fun r => r.revId == ridP) = some rP)
    (htP : revTextsP.find? (fun tx => tx.revTextId == rP.revTextId) = some txP)
    (hiP : txP.revText.lookup ridP = some itemsP) :
    (getCharacterSubjectRevision revRows revTextsS subjects ridS
        = .ok (itemsS.map (csMapItem subjects))
      ∧ ∀ it ∈ itemsS, subjects it.subject_id = none →
          csMapItem subjects it
            = { subjectId := it.subject_id, subjectName := "", characterType := it.crt_type })
    ∧ (getCharacterPersonRevision revRows revTextsP subjects persons ridP
        = .ok (itemsP.map (cpMapItem subjects persons))
      ∧ ∀ it ∈ itemsP,
          (subjects it.subject_id = none →
            (cpMapItem subjects persons it).subjectName = ""
              ∧ (cpMapItem subjects persons it).subjectId = it.subject_id)
          ∧ (persons it.prsn_id = none →
            (cpMapItem subjects persons it).personName = ""
              ∧ (cpMapItem subjects persons it).personId = it.prsn_id)) := by
  refine ⟨⟨?_, ?_⟩, ?_, ?_⟩
  · simp [getCharacterSubjectRevision, hrS, htS, hiS]
  · intro it _ hmiss
    simp [csMapItem, hmiss]
  · simp [getCharacterPersonRevision, hrP, htP, hiP]
  · intro it _
    constructor
    · intro hmiss
      simp [cpMapItem, hmiss]
    · intro hmiss
      simp [cpMapItem, hmiss]

/-- Sample revision row for the detail-route witnesses. -/
def sampleDetailRow : RevRow :=
  { revId := 1, revType := 17, revMid := 3, revCreator := 8, revTextId := 5,
    createdAt := 0, revEditSummary := "" }

/-- Sample character-subject revision-text row: revision 1 relates subject
100 with character appearance type 2. -/
def sampleTxS : RevTextRow CharacterSubjectRevItem :=
  { revTextId := 5, revText := [(1, [{ subject_id := 100, crt_type := 2 }])] }

/-- Sample character-person revision-text row: revision 1 relates subject
100 with person 77. -/
def sampleTxP : RevTextRow CharacterPersonRevItem :=
  { revTextId := 5, revText := [(1, [{ subject_id := 100, prsn_id := 77 }])] }

/-- Empty bulk name-fetch result: every id is absent. -/
def noNames : Nat → Option String := fun _ => none

/-- Witness for C9 at the sample stores: every name fetch misses, the
lookups still return ok, and the entries carry empty names with the ids
preserved. -/
theorem revisionDetail_missing_names_witness :
    ([sampleDetailRow].find? (fun r => r.revId == 1) = some sampleDetailRow
      ∧ [sampleTxS].find? (fun tx => tx.revTextId == sampleDetailRow.revTextId) = some sampleTxS
      ∧ sampleTxS.revText.lookup 1 = some [{ subject_id := 100, crt_type := 2 }]
      ∧ [sampleTxP].find? (fun tx => tx.revTextId == sampleDetailRow.revTextId) = some sampleTxP
      ∧ sampleTxP.revText.lookup 1 = some [{ subject_id := 100, prsn_id := 77 }])
    ∧ ((getCharacterSubjectRevision [sampleDetailRow] [sampleTxS] noNames 1
          = .ok ([{ subject_id := 100, crt_type := 2 }].map (csMapItem noNames))
        ∧ ∀ it ∈ [({ subject_id := 100, crt_type := 2 } : CharacterSubjectRevItem)],
            noNames it.subject_id = none →
              csMapItem noNames it
                = { subjectId := it.subject_id, subjectName := "", characterType := it.crt_type })
      ∧ (getCharacterPersonRevision [sampleDetailRow] [sampleTxP] noNames noNames 1
          = .ok ([{ subject_id := 100, prsn_id := 77 }].map (cpMapItem noNames noNames))
        ∧ ∀ it ∈ [({ subject_id := 100, prsn_id := 77 } : CharacterPersonRevItem)],
            (noNames it.subject_id = none →
              (cpMapItem noNames noNames it).subjectName = ""
                ∧ (cpMapItem noNames noNames it).subjectId = it.subject_id)
            ∧ (noNames it.prsn_id = none →
              (cpMapItem noNames noNames it).personName = ""
                ∧ (cpMapItem noNames noNames it).personId = it.prsn_id))) :=
  ⟨⟨by decide, by decide, by decide, by decide, by decide⟩,
    revisionDetail_missing_names [sampleDetailRow] [sampleTxS] [sampleTxP]
      noNames noNames 1 1 sampleDetailRow sampleDetailRow sampleTxS sampleTxP
      [{ subject_id := 100, crt_type := 2 }] [{ subject_id := 100, prsn_id := 77 }]
      (by decide) (by decide) (by decide) (by decide) (by decide) (by decide)⟩

/-! Embedding of the person wiki routes. -/

/-- One row of the person table (the columns the routes use): redirect 0
means the row is not a redirect, lock true means the entry is locked. -/
structure PersonRow where
  id : Nat
  name : String
  type : Nat
  infobox : String
  summary : String
  img : String
  lock : Bool
  redirect : Nat
deriving Repr, DecidableEq

/-- Response shape of the current-wiki-info lookup (PersonWikiInfo). -/
structure PersonWikiInfoRes where
  id : Nat
  name : String
  typeID : Nat
  infobox : String
  summary : String
deriving Repr, DecidableEq

/-- The getPersonWikiInfo handler: find the non-redirected person row and
return its wiki fields; a locked person is rejected with NotAllowed. -/
def getPersonWikiInfo (personRows : List PersonRow) (personID : Nat) :
    Except WErr PersonWikiInfoRes :=
  match personRows.find? (fun p => p.id == personID && p.redirect == 0) with
  | none => .error (.notFound ("person " ++ toString personID))
  | some p =>
    if p.lock then .error (.notAllowed "edit a locked person")
    else .ok { id := p.id, name := p.name, typeID := p.type,
               infobox := p.infobox, summary := p.summary }

/-- Helper: every error of the relation-history route is the
InvalidArgument validation error. -/
theorem relationHistoryRoute_error_inv (idName : String) (revTypes : List Nat)
    (dbRows : List RevRow) (users : Nat → Option String) (ghost : Nat → String)
    (rawId : ParamValue) (limit offset : Nat) (e : WErr)
    (he : relationHistoryRoute idName revTypes dbRows users ghost rawId limit offset
      = .error e) :
    e = .invalidArgument idName := by
  cases rawId with
  | int i =>
    by_cases hi : (1 : Int) ≤ i
    · simp [relationHistoryRoute, validateIdParam, hi] at he
    · simp [relationHistoryRoute, validateIdParam, hi] at he
      exact he.symm
  | nonInteger s =>
    simp [relationHistoryRoute, validateIdParam] at he
    exact he.symm

/-- Helper: every error of the character-subject detail route is a
NotFound error or the internal TypeError. -/
theorem getCharacterSubjectRevision_error_inv (revRows : List RevRow)
    (revTexts : List (RevTextRow CharacterSubjectRevItem))
    (subjects : Nat → Option String) (rid : Nat) (e : WErr)
    (he : getCharacterSubjectRevision revRows revTexts subjects rid = .error e) :
    (∃ s, e = .notFound s) ∨ e = .internal "TypeError" := by
  cases hr : revRows.find? (fun r => r.revId == rid) with
  | none =>
    simp [getCharacterSubjectRevision, hr] at he
    subst he
    exact .inl ⟨_, rfl⟩
  | some r =>
    cases ht : revTexts.find? (fun tx => tx.revTextId == r.revTextId) with
    | none =>
      simp [getCharacterSubjectRevision, hr, ht] at he
      subst he
      exact .inl ⟨_, rfl⟩
    | some tx =>
      cases hi : tx.revText.lookup rid with
      | none =>
        simp [getCharacterSubjectRevision, hr, ht, hi] at he
        subst he
        exact .inr rfl
      | some items => simp [getCharacterSubjectRevision, hr, ht, hi] at he

/-- Helper: every error of the character-person detail route is a NotFound
error or the internal TypeError. -/
theorem getCharacterPersonRevision_error_inv (revRows : List RevRow)
    (revTexts : List (RevTextRow CharacterPersonRevItem))
    (subjects persons : Nat → Option String) (rid : Nat) (e : WErr)
    (he : getCharacterPersonRevision revRows revTexts subjects persons rid = .error e) :
    (∃ s, e = .notFound s) ∨ e = .internal "TypeError" := by
  cases hr : revRows.find? (fun r => r.revId == rid) with
  | none =>
    simp [getCharacterPersonRevision, hr] at he
    subst he
    exact .inl ⟨_, rfl⟩
  | some r =>
    cases ht : revTexts.find? (fun tx => tx.revTextId == r.revTextId) with
    | none =>
      simp [getCharacterPersonRevision, hr, ht] at he
      subst he
      exact .inl ⟨_, rfl⟩
    | some tx =>
      cases hi : tx.revText.lookup rid with
      | none =>
        simp [getCharacterPersonRevision, hr, ht, hi] at he
        subst he
        exact .inr rfl
      | some items => simp [getCharacterPersonRevision, hr, ht, hi] at he

/-- A locked, non-redirected person row. -/
def lockedPersonRow : PersonRow :=
  { id := 1, name := "L", type := 1, infobox := "i", summary := "s",
    img := "", lock := true, redirect := 0 }

/-- C6 counterexample: the current-wiki-info lookup is a read-only
operation, yet on a locked person it fails with a NotAllowed error, so the
claim that Locked and NotAllowed errors arise only on the mutation path is
false as stated. -/
theorem getPersonWikiInfo_notAllowed_counterexample :
    getPersonWikiInfo [lockedPersonRow] 1 = .error (.notAllowed "edit a locked person") := by
  rfl

/-- C6 (amended): the history query and the revision-detail lookups never
fail with a Locked or NotAllowed error; the current-wiki-info lookup never
fails with Locked, and it fails with NotAllowed exactly when the looked-up
person row exists (non-redirected) and is locked. -/
theorem readonly_routes_locked_notAllowed
    (idName : String) (revTypes : List Nat) (dbRows : List RevRow)
    (users : Nat → Option String) (ghost : Nat → String) (rawId : ParamValue)
    (limit offset : Nat) (revRows : List RevRow)
    (revTextsS : List (RevTextRow CharacterSubjectRevItem))
    (revTextsP : List (RevTextRow CharacterPersonRevItem))
    (subjects persons : Nat → Option String) (ridS ridP : Nat)
    (personRows : List PersonRow) (personID : Nat) :
    (∀ e, relationHistoryRoute idName revTypes dbRows users ghost rawId limit offset
        = .error e → e ≠ .locked ∧ ∀ m, e ≠ .notAllowed m)
    ∧ (∀ e, getCharacterSubjectRevision revRows revTextsS subjects ridS = .error e →
        e ≠ .locked ∧ ∀ m, e ≠ .notAllowed m)
    ∧ (∀ e, getCharacterPersonRevision revRows revTextsP subjects persons ridP = .error e →
        e ≠ .locked ∧ ∀ m, e ≠ .notAllowed m)
    ∧ getPersonWikiInfo personRows personID ≠ .error .locked
    ∧ (∀ m, getPersonWikiInfo personRows personID = .error (.notAllowed m) ↔
        m = "edit a locked person"
          ∧ ∃ p, personRows.find? (fun q => q.id == personID && q.redirect == 0) = some p
              ∧ p.lock) := by
  refine ⟨?_, ?_, ?_, ?_, ?_⟩
  · intro e he
    have := relationHistoryRoute_error_inv idName revTypes dbRows users ghost
      rawId limit offset e he
    subst this
    exact ⟨by simp, fun m => by simp⟩
  · intro e he
    rcases getCharacterSubjectRevision_error_inv revRows revTextsS subjects ridS e he with
      ⟨s, rfl⟩ | rfl
    · exact ⟨by simp, fun m => by simp⟩
    · exact ⟨by simp, fun m => by simp⟩
  · intro e he
    rcases getCharacterPersonRevision_error_inv revRows revTextsP subjects persons ridP e he with
      ⟨s, rfl⟩ | rfl
    · exact ⟨by simp, fun m => by simp⟩
    · exact ⟨by simp, fun m => by simp⟩
  · unfold getPersonWikiInfo
    cases hp : personRows.find? (fun q => q.id == personID && q.redirect == 0) with
    | none => simp
    | some p =>
      by_cases hl : p.lock
      · simp [hl]
      · simp [hl]
  · intro m
    unfold getPersonWikiInfo
    cases hp : personRows.find? (fun q => q.id == personID && q.redirect == 0) with
    | none => simp
    | some p =>
      by_cases hl : p.lock
      · simp only [hl, if_true]
        constructor
        · intro hm
          injection hm with hm
          injection hm with hm
          exact ⟨hm.symm, p, rfl, hl⟩
        · rintro ⟨rfl, -⟩
          rfl
      · simp only [hl, if_false, Bool.false_eq_true]
        constructor
        · intro hm
          exact absurd hm (by simp)
        · rintro ⟨-, p2, hp2, hlock⟩
          injection hp2 with hp2
          subst hp2
          exact absurd hlock hl

/-- Witness for the amended C6 at concrete stores: a valid history query,
both detail lookups, and the wiki-info lookup over a single locked
person. -/
theorem readonly_routes_locked_notAllowed_witness :
    (∀ e, relationHistoryRoute "characterID" [10] sampleDb sampleUsers sampleGhost
        (.int 1) 20 0 = .error e → e ≠ .locked ∧ ∀ m, e ≠ .notAllowed m)
    ∧ (∀ e, getCharacterSubjectRevision [sampleDetailRow] [sampleTxS] noNames 1 = .error e →
        e ≠ .locked ∧ ∀ m, e ≠ .notAllowed m)
    ∧ (∀ e, getCharacterPersonRevision [sampleDetailRow] [sampleTxP] noNames noNames 1
        = .error e → e ≠ .locked ∧ ∀ m, e ≠ .notAllowed m)
    ∧ getPersonWikiInfo [lockedPersonRow] 1 ≠ .error .locked
    ∧ (∀ m, getPersonWikiInfo [lockedPersonRow] 1 = .error (.notAllowed m) ↔
        m = "edit a locked person"
          ∧ ∃ p, [lockedPersonRow].find? (fun q => q.id == 1 && q.redirect == 0) = some p
              ∧ p.lock) :=
  readonly_routes_locked_notAllowed "characterID" [10] sampleDb sampleUsers sampleGhost
    (.int 1) 20 0 [sampleDetailRow] [sampleTxS] [sampleTxP] noNames noNames 1 1
    [lockedPersonRow] 1

/-! Embedding of the optimistic-concurrency check and the person-edit
route. -/

/-- Modelled from the spec: one block of the line-oriented diff description
produced by the matchExpected check of the wiki module (@app/lib/wiki.ts,
which is not among the given sources): a field-name header line, the
expected value on a line prefixed by a minus sign, the current value on a
line prefixed by a plus sign. -/
def diffBlock (field expectedVal currentVal : String) : String :=
  "Index: " ++ field ++ "\n-" ++ expectedVal ++ "\n+" ++ currentVal

/-- Join diff blocks into one line-oriented text. -/
def joinLines : List String → String
  | [] => ""
  | [x] => x
  | x :: xs => x ++ "\n" ++ joinLines xs

/-- A member block occurs verbatim inside the joined text. -/
theorem mem_joinLines_infix (b : String) (l : List String) (hb : b ∈ l) :
    b.data <:+: (joinLines l).data := by
  induction l with
  | nil => cases hb
  | cons x xs ih =>
    cases xs with
    | nil =>
      rcases List.mem_cons.mp hb with rfl | h
      · exact List.infix_refl _
      · cases h
    | cons y ys =>
      rcases List.mem_cons.mp hb with rfl | h
      · show b.data <:+: (b ++ "\n" ++ joinLines (y :: ys)).data
        rw [String.data_append, String.data_append, List.append_assoc]
        exact (List.prefix_append _ _).isInfix
      · have hsuf : (joinLines (y :: ys)).data
            <:+: (x ++ "\n" ++ joinLines (y :: ys)).data := by
          rw [String.data_append]
          exact (List.suffix_append _ _).isInfix
        exact (ih h).trans hsuf

/-- Modelled from the spec: the fields of the expected set that differ from
the current stored value (matchExpected in @app/lib/wiki.ts is not among
the given sources; only its call site in the person-edit handler is). The
expected set is the list of fields the client asserted, each with its
believed value; current maps a field name to its stored value. -/
def mismatchedFields (expected : List (String × String)) (current : String → String) :
    List (String × String) :=
  expected.filter (fun fv => decide (current fv.1 ≠ fv.2))

/-- Modelled from the spec: the matchExpected optimistic-concurrency check
of the wiki module (@app/lib/wiki.ts, not among the given sources). Fields
absent from the expected set are skipped; when every asserted field equals
the stored value the check succeeds; otherwise it fails with the
WikiChangedError carrying the joined per-field diff blocks. -/
def matchExpected (expected : List (String × String)) (current : String → String) :
    Except WErr Unit :=
  let ms := mismatchedFields expected current
  if ms = [] then .ok ()
  else .error (.wikiChanged (joinLines (ms.map (fun fv => diffBlock fv.1 fv.2 (current fv.1)))))

/-- C2: matchExpected succeeds exactly when every field present in the
expected set equals the corresponding current value (an empty expected set
always succeeds, fields only in current are never checked); otherwise it
fails with the concurrent-modification error whose diff text contains, for
each mismatched field, the block naming the field with the expected and
the current value. -/
theorem matchExpected_spec (expected : List (String × String)) (current : String → String) :
    (matchExpected expected current = .ok () ↔ ∀ fv ∈ expected, current fv.1 = fv.2)
    ∧ (∀ fv ∈ expected, current fv.1 ≠ fv.2 →
        ∃ msg, matchExpected expected current = .error (.wikiChanged msg)
          ∧ (diffBlock fv.1 fv.2 (current fv.1)).data <:+: msg.data) := by
  constructor
  · constructor
    · intro hok fv hfv
      by_contra hne
      have hmem : fv ∈ mismatchedFields expected current := by
        simp [mismatchedFields, List.mem_filter, hfv, hne]
      have hnil : mismatchedFields expected current ≠ [] := List.ne_nil_of_mem hmem
      simp [matchExpected, hnil] at hok
    · intro hall
      have hnil : mismatchedFields expected current = [] := by
        simp only [mismatchedFields]
        rw [List.filter_eq_nil_iff]
        intro fv hfv
        simp [hall fv hfv]
      simp [matchExpected, hnil]
  · intro fv hfv hne
    have hmem : fv ∈ mismatchedFields expected current := by
      simp [mismatchedFields, List.mem_filter, hfv, hne]
    have hnil : mismatchedFields expected current ≠ [] := List.ne_nil_of_mem hmem
    have hmm : diffBlock fv.1 fv.2 (current fv.1)
        ∈ (mismatchedFields expected current).map
            (fun gv => diffBlock gv.1 gv.2 (current gv.1)) :=
      List.mem_map.mpr ⟨fv, hmem, rfl⟩
    have hinf := mem_joinLines_infix _ _ hmm
    have herr : matchExpected expected current
        = .error (.wikiChanged (joinLines ((mismatchedFields expected current).map
            (fun gv => diffBlock gv.1 gv.2 (current gv.1))))) := by
      simp [matchExpected, hnil]
    exact ⟨_, herr, hinf⟩

/-- Current stored values where the name field equals the expected one. -/
def currentOkMap : String → String :=
  fun f => if f = "name" then "A" else if f = "infobox" then "X" else ""

/-- Current stored values where the name field conflicts. -/
def currentConflict : String → String :=
  fun f => if f = "name" then "B" else ""

/-- Witness for C2 at the examples of the specification: asserting name A
against current name A (with an unchecked infobox X) succeeds; asserting
name A against current name B fails with a diff naming field name with
expected A and current B. -/
theorem matchExpected_spec_witness :
    ("name", "A") ∈ [(("name" : String), ("A" : String))]
    ∧ currentConflict "name" ≠ "A"
    ∧ matchExpected [("name", "A")] currentOkMap = .ok ()
    ∧ ∃ msg, matchExpected [("name", "A")] currentConflict = .error (.wikiChanged msg)
        ∧ (diffBlock "name" "A" (currentConflict "name")).data <:+: msg.data :=
  ⟨by decide, by decide,
    (matchExpected_spec [("name", "A")] currentOkMap).1.mpr (by decide),
    (matchExpected_spec [("name", "A")] currentConflict).2 ("name", "A")
      (by decide) (by decide)⟩

/-- Caller identity and the permission flag gating the mutation path. -/
structure AuthUser where
  userID : Nat
  monoEdit : Bool
deriving Repr, DecidableEq

/-- A partial person edit: the body fields of PersonEdit, each optional
(t.Partial of PersonEdit). -/
structure PersonEditPartial where
  name : Option String
  infobox : Option String
  summary : Option String
deriving Repr, DecidableEq

/-- One row of the revision log appended by createRevision (the PersonRev
payload is flattened into fields). -/
structure RevisionLogRow where
  mid : Nat
  type : Nat
  crt_name : String
  crt_infobox : String
  crt_summary : String
  extra_img : String
  creator : Nat
  comment : String
deriving Repr, DecidableEq

/-- The RevType.personEdit tag (the enum value lives in the external ORM
entity module; no claim depends on the concrete value). -/
def revTypePersonEdit : Nat := 1

/-- Database state touched by the person-edit transaction: the person
table and the append-only revision log. -/
structure WikiState where
  persons : List PersonRow
  revisions : List RevisionLogRow
deriving Repr, DecidableEq

/-- PersonRepo.findOneBy on the id column. -/
def findPersonById (personRows : List PersonRow) (pid : Nat) : Option PersonRow :=
  personRows.find? (fun p => p.id == pid)

/-- PersonRepo.save: replace the row with the saved row's primary key. -/
def savePerson (personRows : List PersonRow) (p : PersonRow) : List PersonRow :=
  personRows.map (fun q => if q.id == p.id then p else q)

/-- The mutation of the person-edit handler: each input field present
overrides the stored value, each absent field keeps it. -/
def applyEdit (input : PersonEditPartial) (p : PersonRow) : PersonRow :=
  { p with
    infobox := input.infobox.getD p.infobox
    name := input.name.getD p.name
    summary := input.summary.getD p.summary }

/-- The expected-revision body converted to the field list handed to
matchExpected: only the fields present in the partial set. -/
def expectedFields (e : PersonEditPartial) : List (String × String) :=
  (e.name.map (fun v => ("name", v))).toList
    ++ (e.infobox.map (fun v => ("infobox", v))).toList
    ++ (e.summary.map (fun v => ("summary", v))).toList

/-- The current field mapping handed to matchExpected at the call site:
name, infobox and summary of the loaded person row. -/
def personCurrentFields (p : PersonRow) : String → String :=
  fun f => if f = "name" then p.name
    else if f = "infobox" then p.infobox
    else if f = "summary" then p.summary
    else ""

/-- The revision row recorded by createRevision for a person edit. -/
def mkPersonRevision (pid : Nat) (p : PersonRow) (creator : Nat) (comment : String) :
    RevisionLogRow :=
  { mid := pid, type := revTypePersonEdit, crt_name := p.name,
    crt_infobox := p.infobox, crt_summary := p.summary, extra_img := p.img,
    creator := creator, comment := comment }

/-- The body of the patchPersonInfo transaction: load the person row,
reject missing/locked/redirected targets, run the expected-vs-current
check, apply the mutation, save, and record the revision row. -/
def patchPersonInfoTx (st : WikiState) (auth : AuthUser) (personID : Nat)
    (commitMessage : String) (input : PersonEditPartial)
    (expectedRevision : PersonEditPartial) : Except WErr WikiState :=
  match findPersonById st.persons personID with
  | none => .error (.notFound ("person " ++ toString personID))
  | some p =>
    if p.lock || p.redirect != 0 then .error .locked
    else
      match matchExpected (expectedFields expectedRevision) (personCurrentFields p) with
      | .error e => .error e
      | .ok _ =>
        let p2 := applyEdit input p
        .ok { persons := savePerson st.persons p2
              revisions := st.revisions
                ++ [mkPersonRevision personID p2 auth.userID commitMessage] }

/-- The patchPersonInfo route: permission gate, then the transaction; a
transaction error rolls the state back to the initial one, success
commits the new state. -/
def patchPersonInfo (st : WikiState) (auth : AuthUser) (personID : Nat)
    (commitMessage : String) (input : PersonEditPartial)
    (expectedRevision : PersonEditPartial) : Option WErr × WikiState :=
  if !auth.monoEdit then (some (.notAllowed "edit person"), st)
  else
    match patchPersonInfoTx st auth personID commitMessage input expectedRevision with
    | .ok st2 => (none, st2)
    | .error e => (some e, st)

/-- Helper: shape of a successful person-edit transaction. -/
theorem patchPersonInfoTx_ok_inv (st : WikiState) (auth : AuthUser) (pid : Nat)
    (cm : String) (input exp : PersonEditPartial) (st2 : WikiState)
    (h : patchPersonInfoTx st auth pid cm input exp = .ok st2) :
    ∃ p, findPersonById st.persons pid = some p
      ∧ p.lock = false ∧ p.redirect = 0
      ∧ matchExpected (expectedFields exp) (personCurrentFields p) = .ok ()
      ∧ st2.persons = savePerson st.persons (applyEdit input p)
      ∧ st2.revisions
          = st.revisions ++ [mkPersonRevision pid (applyEdit input p) auth.userID cm] := by
  cases hp : findPersonById st.persons pid with
  | none => simp [patchPersonInfoTx, hp] at h
  | some p =>
    by_cases hl : (p.lock || p.redirect != 0) = true
    · simp [patchPersonInfoTx, hp, hl] at h
    · cases hm : matchExpected (expectedFields exp) (personCurrentFields p) with
      | error e => simp [patchPersonInfoTx, hp, hl, hm] at h
      | ok u =>
        cases u
        simp only [patchPersonInfoTx, hp, hl, hm, if_neg, Bool.not_eq_true,
          Except.ok.injEq] at h
        rcases Bool.or_eq_false_iff.mp (Bool.not_eq_true _ ▸ hl) with ⟨hlock, hred⟩
        refine ⟨p, rfl, hlock, by simpa using hred, hm, ?_, ?_⟩
        · rw [← h]
        · rw [← h]

/-- C3: in the person-edit operation, every failure (permission, not
found, locked or redirected, expected-vs-current mismatch) leaves the
state, hence the stored entity and the revision log, unchanged; on success
the persisted mutation and exactly one appended revision row occur
together, so after the operation a new revision row exists exactly when
the mutation was applied. -/
theorem patchPerson_atomic (st : WikiState) (auth : AuthUser) (pid : Nat)
    (cm : String) (input exp : PersonEditPartial) :
    ((patchPersonInfo st auth pid cm input exp).1.isSome →
        (patchPersonInfo st auth pid cm input exp).2 = st)
    ∧ ((patchPersonInfo st auth pid cm input exp).1 = none →
        ∃ p, findPersonById st.persons pid = some p
          ∧ (patchPersonInfo st auth pid cm input exp).2.persons
              = savePerson st.persons (applyEdit input p)
          ∧ (patchPersonInfo st auth pid cm input exp).2.revisions
              = st.revisions ++ [mkPersonRevision pid (applyEdit input p) auth.userID cm]) := by
  by_cases hperm : auth.monoEdit = true
  · cases htx : patchPersonInfoTx st auth pid cm input exp with
    | ok st2 =>
      rcases patchPersonInfoTx_ok_inv st auth pid cm input exp st2 htx with
        ⟨p, hp, -, -, -, hpersons, hrevs⟩
      constructor
      · intro hsome
        simp [patchPersonInfo, hperm, htx] at hsome
      · intro _
        refine ⟨p, hp, ?_, ?_⟩
        · simp [patchPersonInfo, hperm, htx, hpersons]
        · simp [patchPersonInfo, hperm, htx, hrevs]
    | error e =>
      constructor
      · intro _
        simp [patchPersonInfo, hperm, htx]
      · intro hnone
        simp [patchPersonInfo, hperm, htx] at hnone
  · constructor
    · intro _
      simp [patchPersonInfo, hperm]
    · intro hnone
      simp [patchPersonInfo, hperm] at hnone

/-- A plain editable person row for the edit witnesses. -/
def samplePerson : PersonRow :=
  { id := 1, name := "N", type := 1, infobox := "I", summary := "S",
    img := "img", lock := false, redirect := 0 }

/-- Initial state for the edit witnesses: one person, empty revision log. -/
def sampleState : WikiState :=
  { persons := [samplePerson], revisions := [] }

/-- An authorized editor. -/
def sampleAuth : AuthUser :=
  { userID := 42, monoEdit := true }

/-- The all-absent partial edit (empty expected set, empty input). -/
def emptyEdit : PersonEditPartial :=
  { name := none, infobox := none, summary := none }

/-- An input renaming the person and leaving infobox and summary absent. -/
def sampleInput : PersonEditPartial :=
  { name := some "N2", infobox := none, summary := none }

/-- Witness for C3: a successful edit of the sample state commits the
saved person together with exactly one appended revision row. -/
theorem patchPerson_atomic_witness :
    ((patchPersonInfo sampleState sampleAuth 1 "msg" sampleInput emptyEdit).1.isSome →
        (patchPersonInfo sampleState sampleAuth 1 "msg" sampleInput emptyEdit).2 = sampleState)
    ∧ ((patchPersonInfo sampleState sampleAuth 1 "msg" sampleInput emptyEdit).1 = none →
        ∃ p, findPersonById sampleState.persons 1 = some p
          ∧ (patchPersonInfo sampleState sampleAuth 1 "msg" sampleInput emptyEdit).2.persons
              = savePerson sampleState.persons (applyEdit sampleInput p)
          ∧ (patchPersonInfo sampleState sampleAuth 1 "msg" sampleInput emptyEdit).2.revisions
              = sampleState.revisions
                ++ [mkPersonRevision 1 (applyEdit sampleInput p) sampleAuth.userID "msg"]) :=
  patchPerson_atomic sampleState sampleAuth 1 "msg" sampleInput emptyEdit

/-- Helper: the first row with a given id is found from find?. -/
theorem findPersonById_savePerson (pid : Nat) (p p2 : PersonRow) (hid : p2.id = pid) :
    ∀ personRows : List PersonRow, findPersonById personRows pid = some p →
      findPersonById (savePerson personRows p2) pid = some p2 := by
  intro personRows
  induction personRows with
  | nil => intro hp; simp [findPersonById] at hp
  | cons q qs ih =>
    intro hp
    by_cases hq : q.id = pid
    · have hq2 : (q.id == p2.id) = true := by simp [hq, hid]
      have hp2 : (p2.id == pid) = true := by simp [hid]
      simp only [savePerson, List.map_cons, hq2, if_true]
      simp only [findPersonById, List.find?_cons, hp2]
    · have hq2 : (q.id == p2.id) = false := by
        simp only [beq_eq_false_iff_ne, ne_eq, hid]
        exact hq
      have hqpid : (q.id == pid) = false := by
        simp only [beq_eq_false_iff_ne, ne_eq]
        exact hq
      have hp' : findPersonById qs pid = some p := by
        simpa only [findPersonById, List.find?_cons, hqpid] using hp
      have := ih hp'
      simp only [savePerson, List.map_cons, hq2, if_false, Bool.false_eq_true]
      simpa only [findPersonById, List.find?_cons, hqpid] using this

/-- C10: after a successful person edit, the stored person row is the
loaded row with exactly the submitted fields overridden: every field
absent from the partial input (name, infobox, summary) keeps its current
stored value, and the untouched columns (id, img) are unchanged. -/
theorem patchPerson_frame (st : WikiState) (auth : AuthUser) (pid : Nat)
    (cm : String) (input exp : PersonEditPartial) (p : PersonRow)
    (hp : findPersonById st.persons pid = some p)
    (hok : (patchPersonInfo st auth pid cm input exp).1 = none) :
    findPersonById (patchPersonInfo st auth pid cm input exp).2.persons pid
      = some (applyEdit input p)
    ∧ (input.name = none → (applyEdit input p).name = p.name)
    ∧ (input.infobox = none → (applyEdit input p).infobox = p.infobox)
    ∧ (input.summary = none → (applyEdit input p).summary = p.summary)
    ∧ (applyEdit input p).id = p.id
    ∧ (applyEdit input p).img = p.img := by
  have hpid : p.id = pid := by
    have := List.find?_some hp
    simpa using this
  by_cases hperm : auth.monoEdit = true
  · cases htx : patchPersonInfoTx st auth pid cm input exp with
    | ok st2 =>
      rcases patchPersonInfoTx_ok_inv st auth pid cm input exp st2 htx with
        ⟨p1, hp1, -, -, -, hpersons, -⟩
      have heq : p = p1 := by
        rw [hp] at hp1
        exact Option.some.inj hp1
      rw [← heq] at hpersons
      have hfound : findPersonById (savePerson st.persons (applyEdit input p)) pid
          = some (applyEdit input p) :=
        findPersonById_savePerson pid p (applyEdit input p) hpid st.persons hp
      refine ⟨?_, ?_, ?_, ?_, rfl, rfl⟩
      · have h2 : (patchPersonInfo st auth pid cm input exp).2 = st2 := by
          simp [patchPersonInfo, hperm, htx]
        rw [h2, hpersons]
        exact hfound
      · intro hn; simp [applyEdit, hn]
      · intro hn; simp [applyEdit, hn]
      · intro hn; simp [applyEdit, hn]
    | error e =>
      simp [patchPersonInfo, hperm, htx] at hok
  · simp [patchPersonInfo, hperm] at hok

/-- Witness for C10: editing the sample person with only a new name keeps
the stored infobox and summary. -/
theorem patchPerson_frame_witness :
    findPersonById sampleState.persons 1 = some samplePerson
    ∧ (patchPersonInfo sampleState sampleAuth 1 "msg" sampleInput emptyEdit).1 = none
    ∧ (findPersonById
          (patchPersonInfo sampleState sampleAuth 1 "msg" sampleInput emptyEdit).2.persons 1
        = some (applyEdit sampleInput samplePerson)
      ∧ (sampleInput.name = none → (applyEdit sampleInput samplePerson).name = samplePerson.name)
      ∧ (sampleInput.infobox = none →
          (applyEdit sampleInput samplePerson).infobox = samplePerson.infobox)
      ∧ (sampleInput.summary = none →
          (applyEdit sampleInput samplePerson).summary = samplePerson.summary)
      ∧ (applyEdit sampleInput samplePerson).id = samplePerson.id
      ∧ (applyEdit sampleInput samplePerson).img = samplePerson.img) :=
  ⟨by decide, by decide,
    patchPerson_frame sampleState sampleAuth 1 "msg" sampleInput emptyEdit samplePerson
      (by decide) (by decide)⟩

end ServerPrivate
